import Mathlib

/-
Verification of the wsollers/shell final-iteration front end:
the lexer (src/lib/parser/lexer.cpp, include/shell/lexer.hpp),
the recursive-descent parser (src/lib/parser/parser.cpp,
include/shell/parser.hpp) and the AST printer
(src/lib/ast/ast_printer.cpp).

Strings are embedded as lists of characters.  The C++ lexer keeps a
cursor (byte position, line, column) into an immutable source; here the
cursor position is represented by the remaining suffix of the source
(the field rest, with the full source kept so that reset can restore
the start).  Character-level scanning loops are structurally recursive
on that suffix.  Token-level loops (tokenize and the parser loops) are
given explicit fuel, because the C++ loops do not terminate on every
input: next_token returns an empty Identifier token without advancing
when the current character is one of the C isspace characters that
skip_whitespace does not skip (carriage return, vertical tab, form
feed), so the surrounding token loops can spin forever.  Fuel at each
loop entry is set to the source length plus two, which bounds the
iteration count whenever the C++ loop terminates, so fuel exhaustion
(PResult.fuelOut) marks exactly the diverging executions.

Error message strings are transcribed from the source with the ASCII
single quotes around operator names removed; no theorem below depends
on message text, only on the structured kind, line and column.
-/

namespace WShell

/-- Token kinds, mirroring enum class TokenType in include/shell/lexer.hpp. -/
inductive TokenType where
  | Identifier
  | Let
  | Equals
  | Comment
  | Newline
  | Whitespace
  | EndOfFile
  | Dollar
  | Variable
  | LBrace
  | RBrace
  | Pipe
  | Redirect
  | Semicolon
  | Background
deriving DecidableEq, Repr

/-- Token with type, value and location, mirroring struct Token. -/
structure Token where
  type : TokenType
  value : List Char
  line : Nat
  column : Nat
deriving DecidableEq, Repr

/-- Lexer state: the full source (needed by reset), the not yet consumed
suffix of the source (the byte position is the difference of the two
lengths), the line and column counters, and the one-token lookahead
buffer peeked_token_. -/
structure Lexer where
  source : List Char
  rest : List Char
  line : Nat
  column : Nat
  peeked : Option Token
deriving DecidableEq, Repr

/-- Construct a lexer at the start of a source, as the Lexer constructor does. -/
def mkLexer (src : List Char) : Lexer :=
  { source := src, rest := src, line := 1, column := 1, peeked := none }

/-- Mirrors Lexer::is_at_end. -/
def Lexer.is_at_end (s : Lexer) : Bool :=
  s.rest.isEmpty

/-- Mirrors Lexer::reset in include/shell/lexer.hpp: restores position,
line and column, and does not touch the lookahead buffer. -/
def Lexer.reset (s : Lexer) : Lexer :=
  { s with rest := s.source, line := 1, column := 1 }

/-- The C isspace set in the C locale, as used by std::isspace on the
unsigned char cast in Lexer::lex_word: space, tab, newline, vertical
tab, form feed, carriage return. -/
def isCSpace (c : Char) : Bool :=
  c = ' ' || c = '\t' || c = '\n' || c = Char.ofNat 11 || c = Char.ofNat 12 || c = '\r'

/-- The operator-start characters of the is_operator lambda in Lexer::lex_word. -/
def is_operator_char (c : Char) : Bool :=
  c = '=' || c = '#' || c = '|' || c = '&' || c = ';' || c = '<' || c = '>'

/-- Character loop of Lexer::skip_whitespace: consume spaces and tabs,
incrementing the column per consumed character. -/
def skipWsChars : List Char → Nat → List Char × Nat
  | c :: r, col =>
    if c = ' ' || c = '\t' then skipWsChars r (col + 1) else (c :: r, col)
  | [], col => ([], col)

/-- Mirrors Lexer::skip_whitespace. -/
def Lexer.skip_whitespace (s : Lexer) : Lexer :=
  let p := skipWsChars s.rest s.column
  { s with rest := p.1, column := p.2 }

/-- Character loop of Lexer::lex_word: take the maximal run of characters
that are neither C whitespace nor operator-start characters; returns the
word, the remaining suffix and the final column. -/
def scanWordChars : List Char → Nat → List Char × List Char × Nat
  | c :: r, col =>
    if !(isCSpace c) && !(is_operator_char c) then
      let p := scanWordChars r (col + 1)
      (c :: p.1, p.2.1, p.2.2)
    else ([], c :: r, col)
  | [], col => ([], [], col)

/-- Character loop of Lexer::lex_comment: take characters up to (not
including) the next newline or the end of input. -/
def scanCommentChars : List Char → Nat → List Char × List Char × Nat
  | c :: r, col =>
    if c = '\n' then ([], c :: r, col)
    else
      let p := scanCommentChars r (col + 1)
      (c :: p.1, p.2.1, p.2.2)
  | [], col => ([], [], col)

/-- Mirrors Lexer::lex_comment: skip the hash, scan to end of line, trim
exactly one leading space from the text; the token carries the line and
column reached after the scan (make_token is called after the loop). -/
def Lexer.lex_comment (s : Lexer) : Token × Lexer :=
  match s.rest with
  | _ :: r =>
    let p := scanCommentChars r (s.column + 1)
    let text := if p.1.head? = some ' ' then p.1.tail else p.1
    let s' := { s with rest := p.2.1, column := p.2.2 }
    ({ type := .Comment, value := text, line := s'.line, column := s'.column }, s')
  | [] =>
    ({ type := .Comment, value := [], line := s.line, column := s.column }, s)

/-- Mirrors Lexer::lex_word, including the keyword check for let. -/
def Lexer.lex_word (s : Lexer) : Token × Lexer :=
  let p := scanWordChars s.rest s.column
  let s' := { s with rest := p.2.1, column := p.2.2 }
  let ty := if p.1 = "let".data then TokenType.Let else TokenType.Identifier
  ({ type := ty, value := p.1, line := s'.line, column := s'.column }, s')

/-- Mirrors Lexer::next_token.  The buffered peek token is returned and
cleared first; otherwise whitespace is skipped and one token is scanned.
Token positions follow make_token call sites in the source: the Newline
and Equals tokens carry the position before the final advance, the other
operator tokens the position after it. -/
def Lexer.next_token (s : Lexer) : Token × Lexer :=
  match s.peeked with
  | some t => (t, { s with peeked := none })
  | none =>
    let s := s.skip_whitespace
    match s.rest with
    | [] => ({ type := .EndOfFile, value := [], line := s.line, column := s.column }, s)
    | c :: r =>
      if c = '\n' then
        ({ type := .Newline, value := ['\n'], line := s.line, column := s.column },
         { s with rest := r, line := s.line + 1, column := 1 })
      else if c = '#' then
        s.lex_comment
      else if c = '|' then
        let s' := { s with rest := r, column := s.column + 1 }
        ({ type := .Pipe, value := ['|'], line := s'.line, column := s'.column }, s')
      else if c = '&' then
        let s' := { s with rest := r, column := s.column + 1 }
        ({ type := .Background, value := ['&'], line := s'.line, column := s'.column }, s')
      else if c = ';' then
        let s' := { s with rest := r, column := s.column + 1 }
        ({ type := .Semicolon, value := [';'], line := s'.line, column := s'.column }, s')
      else if c = '>' then
        match r with
        | c2 :: r2 =>
          if c2 = '>' then
            let s' := { s with rest := r2, column := s.column + 2 }
            ({ type := .Redirect, value := ['>', '>'], line := s'.line, column := s'.column }, s')
          else
            let s' := { s with rest := c2 :: r2, column := s.column + 1 }
            ({ type := .Redirect, value := ['>'], line := s'.line, column := s'.column }, s')
        | [] =>
          let s' := { s with rest := [], column := s.column + 1 }
          ({ type := .Redirect, value := ['>'], line := s'.line, column := s'.column }, s')
      else if c = '<' then
        let s' := { s with rest := r, column := s.column + 1 }
        ({ type := .Redirect, value := ['<'], line := s'.line, column := s'.column }, s')
      else if c = '=' then
        ({ type := .Equals, value := ['='], line := s.line, column := s.column },
         { s with rest := r, column := s.column + 1 })
      else
        s.lex_word

/-- Mirrors Lexer::peek_token: fill the one-token buffer if empty and
return the buffered token. -/
def Lexer.peek_token (s : Lexer) : Token × Lexer :=
  match s.peeked with
  | some t => (t, s)
  | none =>
    let p := s.next_token
    (p.1, { p.2 with peeked := some p.1 })

/-- Token loop of the static Lexer::tokenize, with explicit fuel: none
models an execution still running after the given number of iterations
(the C++ loop has no bound). -/
def tokenizeLoop : Nat → Lexer → List Token → Option (List Token)
  | 0, _, _ => none
  | fuel + 1, s, acc =>
    let p := s.next_token
    if p.1.type = TokenType.EndOfFile then some (p.1 :: acc).reverse
    else tokenizeLoop fuel p.2 (p.1 :: acc)

/-- Mirrors the static Lexer::tokenize on a fresh lexer. -/
def tokenize (fuel : Nat) (src : List Char) : Option (List Token) :=
  tokenizeLoop fuel (mkLexer src) []

/-!
The AST of the final iteration.  The value-variant header that the lib
parser and printer compile against is not present under src (the checked
in include/shell/ast.hpp is an earlier pointer-based iteration); the
node shapes below follow the spec data model and the uses in
src/lib/parser/parser.cpp, src/lib/ast/ast_printer.cpp and
include/shell/ast_to_command_model.hpp (Word with text, quoted,
needs_expansion; RedirectKind with Input, OutputTruncate, OutputAppend;
CommandNode owning Words by value; the StatementNode variant over
comment, assignment, command, pipeline, sequence).  The separate
CommentNode and AssignmentNode structs are flattened into the variant
constructors carrying their fields.
-/

/-- Shell word after lexical unquoting: raw text, quoting flag,
expansion-eligibility flag. -/
structure Word where
  text : List Char
  quoted : Bool
  needs_expansion : Bool
deriving DecidableEq, Repr

/-- Redirection kinds of the final iteration. -/
inductive RedirectKind where
  | Input
  | OutputTruncate
  | OutputAppend
deriving DecidableEq, Repr

/-- Redirection with kind and target word. -/
structure Redirection where
  kind : RedirectKind
  target : Word
deriving DecidableEq, Repr

/-- Simple command with name, arguments, redirections and background flag. -/
structure CommandNode where
  command_name : Word
  arguments : List Word
  redirections : List Redirection
  background : Bool
deriving DecidableEq, Repr

/-- The StatementNode variant: comment, assignment, command, pipeline,
sequence.  AssignmentNode holds variable and value strings; the field
called variable in the source is named variableName here because
variable is a Lean keyword. -/
inductive StatementNode where
  | comment (text : List Char)
  | assignment (variableName : List Char) (value : List Char)
  | command (cmd : CommandNode)
  | pipeline (commands : List CommandNode)
  | sequence (statements : List StatementNode)
deriving Repr

/-- Top-level program node: the list of parsed statements. -/
structure ProgramNode where
  statements : List StatementNode
deriving Repr

/-- Parse error kinds of include/shell/parser.hpp. -/
inductive ParseErrorKind where
  | SyntaxError
  | IncompleteInput
deriving DecidableEq, Repr

/-- Parse error value: kind, message, line, column.  The C++ struct also
records a std::source_location of the throw site, debug metadata that is
not modelled. -/
structure ParseError where
  kind : ParseErrorKind
  message : List Char
  line : Nat
  column : Nat
deriving DecidableEq, Repr

/-- Result of a parser step: a value together with the lexer state after
it, a parse error, or fuel exhaustion (marking an execution on which the
C++ loop would not have terminated). -/
inductive PResult (α : Type) where
  | ok (val : α) (st : Lexer)
  | err (e : ParseError)
  | fuelOut
deriving Repr

/-!
Parser token helpers.  Parser::check, Parser::match and
Parser::make_error all go through Lexer::peek_token and so can fill the
lookahead buffer; every helper therefore returns the lexer state it
leaves behind.  In the C++ short-circuit conjunctions of several check
calls, the later calls find the buffer already filled and leave the
state unchanged, so evaluating all of the checks in sequence (as the
helpers below do) gives the same token and the same final state.
-/

/-- Mirrors Parser::check. -/
def check (ty : TokenType) (s : Lexer) : Bool × Lexer :=
  let p := s.peek_token
  (decide (p.1.type = ty), p.2)

/-- Mirrors Parser::match: consume the peeked token when it has the
requested type. -/
def match_tok (ty : TokenType) (s : Lexer) : Bool × Lexer :=
  let p := s.peek_token
  if p.1.type = ty then (true, (p.2.next_token).2) else (false, p.2)

/-- Mirrors Parser::make_error: the position is taken from the peeked
token.  The lexer state after the internal peek is dropped because every
caller returns the error immediately. -/
def make_error (kind : ParseErrorKind) (msg : List Char) (s : Lexer) : ParseError :=
  let p := s.peek_token
  { kind := kind, message := msg, line := p.1.line, column := p.1.column }

/-- Mirrors Parser::skip_newlines (fuelled token loop). -/
def skip_newlines : Nat → Lexer → Lexer
  | 0, s => s
  | fuel + 1, s =>
    let m := match_tok .Newline s
    if m.1 then skip_newlines fuel m.2 else m.2

/-- Comment-skipping loops (while match Comment) in Parser::parse_assignment
and Parser::parse_pipeline. -/
def skip_comments : Nat → Lexer → Lexer
  | 0, s => s
  | fuel + 1, s =>
    let m := match_tok .Comment s
    if m.1 then skip_comments fuel m.2 else m.2

/-- Mirrors Parser::parse_comment; the CommentNode is its text. -/
def parse_comment (s : Lexer) : PResult (List Char) :=
  let c := check .Comment s
  if c.1 then
    let p := c.2.next_token
    .ok p.1.value p.2
  else .err (make_error .SyntaxError "Expected comment".data c.2)

/-- Value-collecting loop of Parser::parse_assignment: append token
values separated by single spaces until a newline, end of file or
semicolon is peeked. -/
def assign_value_loop : Nat → Lexer → List Char → Bool → PResult (List Char)
  | 0, _, _, _ => .fuelOut
  | fuel + 1, s, value, first =>
    let c1 := check .Newline s
    let c2 := check .EndOfFile c1.2
    let c3 := check .Semicolon c2.2
    if c1.1 || c2.1 || c3.1 then .ok value c3.2
    else
      let p := c3.2.peek_token
      let value' := if first then value ++ p.1.value else value ++ ' ' :: p.1.value
      assign_value_loop fuel ((p.2.next_token).2) value' false

/-- Mirrors Parser::parse_assignment; the AssignmentNode is the pair of
variable name and value. -/
def parse_assignment (s : Lexer) : PResult (List Char × List Char) :=
  let m := match_tok .Let s
  if m.1 then
    let c := check .Identifier m.2
    if c.1 then
      let p := c.2.peek_token
      let variableName := p.1.value
      let s1 := (p.2.next_token).2
      let m2 := match_tok .Equals s1
      if m2.1 then
        let s2 := skip_comments (m2.2.source.length + 2) m2.2
        let c1 := check .Semicolon s2
        let c2 := check .EndOfFile c1.2
        let c3 := check .Newline c2.2
        if c1.1 || c2.1 || c3.1 then .ok (variableName, []) c3.2
        else
          match assign_value_loop (c3.2.source.length + 2) c3.2 [] true with
          | .ok v s' => .ok (variableName, v) s'
          | .err e => .err e
          | .fuelOut => .fuelOut
      else .err (make_error .SyntaxError "Expected = after variable name".data m2.2)
    else .err (make_error .SyntaxError "Expected variable name after let".data c.2)
  else .err (make_error .SyntaxError "Expected let keyword".data m.2)

/-- Mirrors the anonymous redirect_kind_from_lexeme helper. -/
def redirect_kind_from_lexeme (v : List Char) : RedirectKind :=
  if v = ">".data then .OutputTruncate
  else if v = ">>".data then .OutputAppend
  else .Input

/-- Mirrors Parser::parse_redirection. -/
def parse_redirection (s : Lexer) : PResult Redirection :=
  let c := check .Redirect s
  if c.1 then
    let pop := c.2.next_token
    let op := pop.1
    let c1 := check .EndOfFile pop.2
    let c2 := check .Newline c1.2
    if c1.1 || c2.1 then
      .err { kind := .SyntaxError, message := "Expected redirection target".data,
             line := op.line, column := op.column }
    else
      let pt := c2.2.peek_token
      let target := pt.1
      if target.type = .Comment then
        .err (make_error .SyntaxError "Expected redirection target".data pt.2)
      else if target.type = .Identifier then
        let s' := (pt.2.next_token).2
        .ok { kind := redirect_kind_from_lexeme op.value,
              target := { text := target.value, quoted := false, needs_expansion := true } } s'
      else
        .err (make_error .SyntaxError "Expected redirection target".data pt.2)
  else .err (make_error .SyntaxError "Expected redirection operator".data c.2)

/-- The control-token test at the head of the argument loop in
Parser::parse_simple_command (and inside the quoted-merge loop):
newline, end of file, pipe, semicolon, background or redirect. -/
def check_stop (s : Lexer) : Bool × Lexer :=
  let a := check .Newline s
  let b := check .EndOfFile a.2
  let c := check .Pipe b.2
  let d := check .Semicolon c.2
  let e := check .Background d.2
  let f := check .Redirect e.2
  (a.1 || b.1 || c.1 || d.1 || e.1 || f.1, f.2)

/-- Quoted-argument merge loop of Parser::parse_simple_command: keep
consuming tokens, joining by a single space, until the accumulated value
ends in a double quote (which is removed) or a control token is reached
(unterminated quote).  None models fuel exhaustion. -/
def quote_loop : Nat → Lexer → List Char → Option (List Char × Lexer)
  | 0, _, _ => none
  | fuel + 1, s, val =>
    if val.getLast? = some '\"' then some (val.dropLast, s)
    else
      let s1 := (s.next_token).2
      let st := check_stop s1
      if st.1 then some (val, st.2)
      else
        let pn := st.2.peek_token
        quote_loop fuel pn.2 (val ++ ' ' :: pn.1.value)

/-- Argument-collecting loop of Parser::parse_simple_command. -/
def args_loop : Nat → Lexer → List Word → PResult (List Word)
  | 0, _, _ => .fuelOut
  | fuel + 1, s, args =>
    let st := check_stop s
    if st.1 then .ok args st.2
    else
      let pt := st.2.peek_token
      let t := pt.1
      if t.type = .Identifier ∨ t.type = .Equals then
        if t.value.head? = some '\"' then
          match quote_loop fuel pt.2 t.value.tail with
          | none => .fuelOut
          | some (val, s') =>
            args_loop fuel ((s'.next_token).2)
              (args ++ [{ text := val, quoted := true, needs_expansion := true }])
        else
          args_loop fuel ((pt.2.next_token).2)
            (args ++ [{ text := t.value, quoted := false, needs_expansion := true }])
      else .ok args pt.2

/-- Mirrors Parser::parse_simple_command: command name word plus the
collected arguments; redirections empty and background false at this
stage. -/
def parse_simple_command (s : Lexer) : PResult CommandNode :=
  let pt := s.peek_token
  let cmd_tok := pt.1
  if cmd_tok.type = .Identifier then
    let name_word : Word := { text := cmd_tok.value, quoted := false, needs_expansion := true }
    let s1 := (pt.2.next_token).2
    match args_loop (s1.source.length + 2) s1 [] with
    | .ok args s' =>
      .ok { command_name := name_word, arguments := args,
            redirections := [], background := false } s'
    | .err e => .err e
    | .fuelOut => .fuelOut
  else .err (make_error .SyntaxError "Expected command name".data pt.2)

/-- Redirection-attaching loop of Parser::parse_command. -/
def redir_loop : Nat → Lexer → List Redirection → PResult (List Redirection)
  | 0, _, _ => .fuelOut
  | fuel + 1, s, redirs =>
    let c := check .Redirect s
    if c.1 then
      match parse_redirection c.2 with
      | .ok r s' => redir_loop fuel s' (redirs ++ [r])
      | .err e => .err e
      | .fuelOut => .fuelOut
    else .ok redirs c.2

/-- Mirrors Parser::parse_command: simple command, then redirections,
then the optional background flag. -/
def parse_command (s : Lexer) : PResult CommandNode :=
  match parse_simple_command s with
  | .ok cmd s1 =>
    match redir_loop (s1.source.length + 2) s1 cmd.redirections with
    | .ok rs s2 =>
      let m := match_tok .Background s2
      if m.1 then .ok { cmd with redirections := rs, background := true } m.2
      else .ok { cmd with redirections := rs } m.2
    | .err e => .err e
    | .fuelOut => .fuelOut
  | .err e => .err e
  | .fuelOut => .fuelOut

/-- Pipe-extension loop of Parser::parse_pipeline.  The lexer state saved
before consuming the pipe includes the filled lookahead buffer, so on a
rolled-back speculative extension the caller sees the pipe again. -/
def pipeline_loop : Nat → Lexer → List CommandNode → PResult (List CommandNode)
  | 0, _, _ => .fuelOut
  | fuel + 1, s, cmds =>
    let c := check .Pipe s
    if c.1 then
      let pp := c.2.peek_token
      let pipe_tok := pp.1
      let saved := pp.2
      let m := match_tok .Pipe pp.2
      let s1 := skip_comments (m.2.source.length + 2) m.2
      let cp := check .Pipe s1
      if cp.1 then
        let pk := cp.2.peek_token
        .err { kind := .SyntaxError, message := "Unexpected | after |".data,
               line := pk.1.line, column := pk.1.column }
      else
        let cs := check .Semicolon cp.2
        if cs.1 then
          let pk := cs.2.peek_token
          .err { kind := .SyntaxError, message := "Unexpected ; after |".data,
                 line := pk.1.line, column := pk.1.column }
        else
          let ce := check .EndOfFile cs.2
          let cn := check .Newline ce.2
          if ce.1 || cn.1 then
            .err { kind := .IncompleteInput, message := "Expected command after |".data,
                   line := pipe_tok.line, column := pipe_tok.column }
          else
            match parse_command cn.2 with
            | .ok next s2 => pipeline_loop fuel s2 (cmds ++ [next])
            | .err e =>
              if e.kind = .IncompleteInput then .err e
              else .ok cmds saved
            | .fuelOut => .fuelOut
    else .ok cmds c.2

/-- Mirrors Parser::parse_pipeline: one command, then the pipe loop; a
one-element result collapses to a bare CommandNode. -/
def parse_pipeline (s : Lexer) : PResult StatementNode :=
  match parse_command s with
  | .ok first s1 =>
    match pipeline_loop (s1.source.length + 2) s1 [first] with
    | .ok cmds s2 =>
      if cmds.length = 1 then .ok (.command (cmds.headD first)) s2
      else .ok (.pipeline cmds) s2
    | .err e => .err e
    | .fuelOut => .fuelOut
  | .err e => .err e
  | .fuelOut => .fuelOut

/-- Semicolon loop of Parser::parse_list. -/
def list_loop : Nat → Lexer → List StatementNode → PResult (List StatementNode)
  | 0, _, _ => .fuelOut
  | fuel + 1, s, stmts =>
    let m := match_tok .Semicolon s
    if m.1 then
      let ce := check .EndOfFile m.2
      let cn := check .Newline ce.2
      if ce.1 || cn.1 then .ok stmts cn.2
      else
        let cp := check .Pipe cn.2
        let cr := check .Redirect cp.2
        if cp.1 || cr.1 then
          let pk := cr.2.peek_token
          .err { kind := .IncompleteInput, message := "Incomplete command at end of line".data,
                 line := pk.1.line, column := pk.1.column }
        else
          match parse_pipeline cr.2 with
          | .ok next s2 =>
            let cp2 := check .Pipe s2
            let cr2 := check .Redirect cp2.2
            if cp2.1 || cr2.1 then
              let pk := cr2.2.peek_token
              .err { kind := .IncompleteInput,
                     message := "Incomplete command at end of line".data,
                     line := pk.1.line, column := pk.1.column }
            else list_loop fuel cr2.2 (stmts ++ [next])
          | .err e => .err e
          | .fuelOut => .fuelOut
    else .ok stmts m.2

/-- Mirrors Parser::parse_list: a pipeline, returned directly when no
semicolon follows, otherwise the semicolon loop builds a SequenceNode. -/
def parse_list (s : Lexer) : PResult StatementNode :=
  match parse_pipeline s with
  | .ok first s1 =>
    let c := check .Semicolon s1
    if c.1 then
      match list_loop (c.2.source.length + 2) c.2 [first] with
      | .ok stmts s2 => .ok (.sequence stmts) s2
      | .err e => .err e
      | .fuelOut => .fuelOut
    else .ok first c.2
  | .err e => .err e
  | .fuelOut => .fuelOut

/-- Mirrors Parser::parse_statement. -/
def parse_statement (s : Lexer) : PResult StatementNode :=
  let s0 := skip_newlines (s.source.length + 2) s
  let ce := check .EndOfFile s0
  if ce.1 then .err (make_error .SyntaxError "Unexpected end of input".data ce.2)
  else
    let cc := check .Comment ce.2
    if cc.1 then
      match parse_comment cc.2 with
      | .ok text s1 => .ok (.comment text) s1
      | .err e => .err e
      | .fuelOut => .fuelOut
    else
      let cl := check .Let cc.2
      if cl.1 then
        match parse_assignment cl.2 with
        | .ok vv s1 => .ok (.assignment vv.1 vv.2) s1
        | .err e => .err e
        | .fuelOut => .fuelOut
      else parse_list cl.2

/-- Statement loop of Parser::parse_program. -/
def program_loop : Nat → Lexer → List StatementNode → PResult (List StatementNode)
  | 0, _, _ => .fuelOut
  | fuel + 1, s, acc =>
    let ce := check .EndOfFile s
    if ce.1 then .ok acc ce.2
    else
      match parse_statement ce.2 with
      | .ok st s1 => program_loop fuel (skip_newlines (s1.source.length + 2) s1) (acc ++ [st])
      | .err e => .err e
      | .fuelOut => .fuelOut

/-- Mirrors Parser::parse_program. -/
def Parser.parse_program (s : Lexer) : PResult ProgramNode :=
  let s0 := skip_newlines (s.source.length + 2) s
  match program_loop (s0.source.length + 2) s0 [] with
  | .ok stmts s1 => .ok { statements := stmts } s1
  | .err e => .err e
  | .fuelOut => .fuelOut

/-- Mirrors Parser::parse_line: empty input is accepted as an empty
program; otherwise one statement, an optional trailing newline and
semicolon, and a classification of any leftover tokens. -/
def Parser.parse_line (s : Lexer) : PResult ProgramNode :=
  let ce := check .EndOfFile s
  let cn := check .Newline ce.2
  if ce.1 || cn.1 then .ok { statements := [] } cn.2
  else
    match parse_statement cn.2 with
    | .ok stmt s1 =>
      let cn2 := check .Newline s1
      let s2 := if cn2.1 then ((cn2.2.next_token).2) else cn2.2
      let cs2 := check .Semicolon s2
      let s3 := if cs2.1 then ((cs2.2.next_token).2) else cs2.2
      let ce2 := check .EndOfFile s3
      if ce2.1 then .ok { statements := [stmt] } ce2.2
      else
        let pl := ce2.2.peek_token
        let last := pl.1
        if last.type = .Pipe ∨ last.type = .Redirect then
          .err { kind := .IncompleteInput, message := "Incomplete command at end of line".data,
                 line := last.line, column := last.column }
        else if last.type = .Semicolon then
          let s4 := (pl.2.next_token).2
          let ce3 := check .EndOfFile s4
          if ce3.1 then .ok { statements := [stmt] } ce3.2
          else
            let pn := ce3.2.peek_token
            if pn.1.type = .Pipe ∨ pn.1.type = .Redirect then
              .err { kind := .IncompleteInput,
                     message := "Incomplete command at end of line".data,
                     line := pn.1.line, column := pn.1.column }
            else
              .err { kind := .SyntaxError, message := "Unexpected tokens after statement".data,
                     line := pn.1.line, column := pn.1.column }
        else
          .err { kind := .SyntaxError, message := "Unexpected tokens after statement".data,
                 line := last.line, column := last.column }
    | .err e => .err e
    | .fuelOut => .fuelOut

/-- Outcome of the free wshell parse functions, with the final lexer
state dropped (the C++ free functions destroy the Parser on return). -/
inductive ParseOutcome where
  | ok (program : ProgramNode)
  | err (e : ParseError)
  | fuelOut
deriving Repr

/-- The free function wshell::parse_line of include/shell/parser.hpp
(minus its debug printing to stdout). -/
def parse_line_main (src : List Char) : ParseOutcome :=
  match Parser.parse_line (mkLexer src) with
  | .ok p _ => .ok p
  | .err e => .err e
  | .fuelOut => .fuelOut

/-- The free function wshell::parse_program of include/shell/parser.hpp
(minus its debug printing to stdout). -/
def parse_program_main (src : List Char) : ParseOutcome :=
  match Parser.parse_program (mkLexer src) with
  | .ok p _ => .ok p
  | .err e => .err e
  | .fuelOut => .fuelOut

/-- Error kind of a parse_line run, when it errors. -/
def parse_line_kind (src : List Char) : Option ParseErrorKind :=
  match parse_line_main src with
  | .err e => some e.kind
  | _ => none

/-!
The AST printer of src/lib/ast/ast_printer.cpp.  Rendering is into a
character list; the recursion through SequenceNode is over a nested
inductive, so print_node carries a nesting-depth fuel (trees produced by
this parser have depth at most two, far below the bound used in
to_string below).
-/

/-- Mirrors the indent helper: two spaces per level. -/
def indentChars (level : Nat) : List Char :=
  List.replicate (2 * level) ' '

/-- Modelled from the spec: the stream-insertion operator for Word used
by ast_printer.cpp is declared in the final-iteration AST header, which
is not under src (only its callers are); per the spec printer contract
and its golden strings, a Word renders as its raw text. -/
def word_render (w : Word) : List Char :=
  w.text

/-- Mirrors print_redirection. -/
def print_redirection (r : Redirection) (level : Nat) : List Char :=
  indentChars level ++
    (match r.kind with
     | .Input => "< ".data
     | .OutputTruncate => "> ".data
     | .OutputAppend => ">> ".data) ++
    word_render r.target ++ ['\n']

/-- Mirrors print_command. -/
def print_command (cmd : CommandNode) (level : Nat) : List Char :=
  indentChars level ++ "Command: ".data ++ word_render cmd.command_name ++
    (if cmd.background then " &".data else []) ++ ['\n'] ++
    (if cmd.arguments.isEmpty then [] else
      indentChars (level + 1) ++ "Args:".data ++
        (cmd.arguments.map (fun a => ' ' :: word_render a)).flatten ++ ['\n']) ++
    (if cmd.redirections.isEmpty then [] else
      indentChars (level + 1) ++ "Redirections:".data ++ ['\n'] ++
        (cmd.redirections.map (fun r => print_redirection r (level + 2))).flatten)

/-- Mirrors print_node (the core variant printer), with nesting fuel. -/
def print_node : Nat → StatementNode → Nat → List Char
  | 0, _, _ => []
  | fuel + 1, stmt, level =>
    match stmt with
    | .comment text => indentChars level ++ "Comment: ".data ++ text ++ ['\n']
    | .assignment v val =>
      indentChars level ++ "Assignment: ".data ++ v ++ " = ".data ++ val ++ ['\n']
    | .command cmd => print_command cmd level
    | .pipeline cmds =>
      indentChars level ++ "Pipeline:".data ++ ['\n'] ++
        (cmds.map (fun c => print_command c (level + 1))).flatten
    | .sequence stmts =>
      indentChars level ++ "Sequence:".data ++ ['\n'] ++
        (stmts.map (fun st => print_node fuel st (level + 1))).flatten

/-- Mirrors to_string on a StatementNode. -/
def to_string_statement (stmt : StatementNode) : List Char :=
  print_node 64 stmt 0

/-- Mirrors print_program followed by to_string on a ProgramNode. -/
def to_string_program (p : ProgramNode) : List Char :=
  (p.statements.map (fun st => print_node 64 st 0)).flatten

/-- The printer applied to the result of parse_line, when it parses. -/
def printed_line (src : List Char) : Option (List Char) :=
  match parse_line_main src with
  | .ok p => some (to_string_program p)
  | _ => none

/-!
Collapse predicates for the singleton-wrapper invariant.  base_ok holds
for a statement that is not a sequence and whose pipelines (if any) have
at least two commands; stmt_ok additionally allows one top-level
sequence whose elements all satisfy base_ok, which is the exact shape
parse_list can build (sequence elements come from parse_pipeline, so
sequences never nest in parser output).
-/

/-- Non-sequence statement with no degenerate pipeline. -/
def base_ok : StatementNode → Bool
  | .pipeline cmds => decide (2 ≤ cmds.length)
  | .sequence _ => false
  | _ => true

/-- Statement with no degenerate pipeline anywhere: either base_ok, or a
sequence of base_ok statements. -/
def stmt_ok : StatementNode → Bool
  | .sequence stmts => stmts.all base_ok
  | st => base_ok st

/-- Program whose statements all satisfy stmt_ok. -/
def prog_ok (p : ProgramNode) : Bool :=
  p.statements.all stmt_ok

/-- The command node parsed from the words echo hi. -/
def echo_hi_cmd : CommandNode :=
  { command_name := { text := "echo".data, quoted := false, needs_expansion := true },
    arguments := [{ text := "hi".data, quoted := false, needs_expansion := true }],
    redirections := [], background := false }

/-- The empty Identifier token that the lexer produces, without advancing,
when the current character is a carriage return. -/
def cr_token : Token :=
  { type := .Identifier, value := [], line := 1, column := 1 }

/-- On a lone carriage return, next_token returns an empty Identifier
token and leaves the lexer state unchanged. -/
theorem next_token_cr : Lexer.next_token (mkLexer ['\r']) = (cr_token, mkLexer ['\r']) := by
  rfl

/-- The tokenize loop on a lone carriage return never reaches the
EndOfFile token, for any fuel and accumulator. -/
theorem tokenizeLoop_cr (fuel : Nat) :
    ∀ acc, tokenizeLoop fuel (mkLexer ['\r']) acc = none := by
  induction fuel with
  | zero => intro acc; rfl
  | succ n ih =>
    intro acc
    simp only [tokenizeLoop, next_token_cr]
    simpa [cr_token] using ih (cr_token :: acc)

/-- C1: the claim says parse_line on an input ending in a dangling pipe
returns a ParseError of kind SyntaxError (the final-revision policy that
the tests in src/test/line_continuation_tests.cpp assert).  Evaluating
the code at the failing input echo hi | shows it returns kind
IncompleteInput instead. -/
theorem claim_C1_dangling_pipe_kind :
    parse_line_kind "echo hi |".data = some ParseErrorKind.IncompleteInput := by
  rfl

/-- C2: the claim says parsing the accumulated continuation buffer
echo hi |, newline, space, grep h, newline succeeds with a two-command
pipeline.  Evaluating the code shows the parse fails again with kind
IncompleteInput (parse_pipeline treats a newline right after the pipe
exactly like end of input), so the buffer-and-retry strategy never
converges on a dangling pipe. -/
theorem claim_C2_continuation_buffer_kind :
    parse_line_kind "echo hi |\n grep h\n".data = some ParseErrorKind.IncompleteInput := by
  rfl

/-- C3 counterexample: a single command followed by a trailing semicolon
parses to a one-element SequenceNode wrapping the command, not to a bare
CommandNode, refuting the claim that no returned tree contains a
one-element SequenceNode. -/
theorem claim_C3_counterexample :
    parse_line_main "echo hi;".data =
      ParseOutcome.ok { statements := [StatementNode.sequence [StatementNode.command echo_hi_cmd]] } := by
  rfl

/-- C4: to_string applied to the result of parse_line on the input
echo hello world followed by a newline is exactly the string
Command: echo, newline, two spaces, Args: hello world, newline. -/
theorem claim_C4_printer_round_trip :
    printed_line "echo hello world\n".data = some ("Command: echo\n  Args: hello world\n".data) := by
  rfl

/-- C6: empty input, a lone newline, and whitespace followed by a newline
are each accepted by parse_line as a program with zero statements. -/
theorem claim_C6_empty_inputs :
    parse_line_main [] = ParseOutcome.ok { statements := [] } ∧
    parse_line_main "\n".data = ParseOutcome.ok { statements := [] } ∧
    parse_line_main "   \n".data = ParseOutcome.ok { statements := [] } := by
  exact ⟨rfl, rfl, rfl⟩

/-- C7: let x = 42 parses to an assignment of 42 to x, and let x = with
no value parses to an assignment of the empty string to x; neither is an
error. -/
theorem claim_C7_assignments :
    parse_line_main "let x = 42\n".data =
      ParseOutcome.ok { statements := [StatementNode.assignment ['x'] "42".data] } ∧
    parse_line_main "let x =\n".data =
      ParseOutcome.ok { statements := [StatementNode.assignment ['x'] []] } := by
  exact ⟨rfl, rfl⟩

/-- C8: the claim says tokenize terminates on every input with exactly
one EndOfFile token at the end.  On the one-character input carriage
return, the lexer returns an empty Identifier token without consuming
anything, so the tokenize loop never terminates: for every iteration
bound the loop is still running. -/
theorem claim_C8_tokenize_diverges (fuel : Nat) : tokenize fuel ['\r'] = none := by
  exact tokenizeLoop_cr fuel []

/-- C9: for every lexer state, peeking twice without consuming returns
the same token and leaves the same state, and a next_token call made
after a peek_token returns exactly the token the peek returned (the
buffered token). -/
theorem claim_C9_lookahead (s : Lexer) :
    ((s.peek_token.2).peek_token).1 = (s.peek_token).1 ∧
    ((s.peek_token.2).peek_token).2 = (s.peek_token).2 ∧
    ((s.peek_token.2).next_token).1 = (s.peek_token).1 := by
  cases h : s.peeked with
  | some t => simp [Lexer.peek_token, Lexer.next_token, h]
  | none => simp [Lexer.peek_token, Lexer.next_token, h]

/-- C10: reset restores only the cursor (position, here the remaining
suffix, plus line and column) and leaves the lookahead buffer in place,
so after a peek_token, a reset followed by next_token returns the
previously buffered token rather than the first token re-scanned from
the start of the input. -/
theorem claim_C10_reset_keeps_buffer (s : Lexer) :
    (s.reset).peeked = s.peeked ∧
    (s.reset).rest = s.source ∧
    (s.reset).line = 1 ∧
    (s.reset).column = 1 ∧
    (((s.peek_token.2).reset).next_token).1 = (s.peek_token).1 := by
  refine ⟨rfl, rfl, rfl, rfl, ?_⟩
  cases h : s.peeked with
  | some t => simp [Lexer.peek_token, Lexer.next_token, Lexer.reset, h]
  | none => simp [Lexer.peek_token, Lexer.next_token, Lexer.reset, h]

/-- The argument loop only ever appends to its accumulator: whatever it
returns extends the already-collected arguments on the right, so
arguments end up in exactly the order in which the loop met them. -/
theorem args_loop_append :
    ∀ (fuel : Nat) (s : Lexer) (acc res : List Word) (s' : Lexer),
      args_loop fuel s acc = .ok res s' → ∃ tail, res = acc ++ tail := by
  intro fuel
  induction fuel with
  | zero =>
    intro s acc res s' h
    simp [args_loop] at h
  | succ n ih =>
    intro s acc res s' h
    simp only [args_loop] at h
    split at h
    · cases h
      exact ⟨[], by simp⟩
    · split at h
      · split at h
        · split at h
          · simp at h
          · obtain ⟨tail, rfl⟩ := ih _ _ _ _ h
            exact ⟨_, List.append_assoc _ _ _⟩
        · obtain ⟨tail, rfl⟩ := ih _ _ _ _ h
          exact ⟨_, List.append_assoc _ _ _⟩
      · cases h
        exact ⟨[], by simp⟩

/-- The redirection loop only ever appends to its accumulator, so
redirections are recorded in exactly the order in which they appear. -/
theorem redir_loop_append :
    ∀ (fuel : Nat) (s : Lexer) (acc res : List Redirection) (s' : Lexer),
      redir_loop fuel s acc = .ok res s' → ∃ tail, res = acc ++ tail := by
  intro fuel
  induction fuel with
  | zero =>
    intro s acc res s' h
    simp [redir_loop] at h
  | succ n ih =>
    intro s acc res s' h
    simp only [redir_loop] at h
    split at h
    · split at h
      · obtain ⟨tail, rfl⟩ := ih _ _ _ _ h
        exact ⟨_, List.append_assoc _ _ _⟩
      · simp at h
      · simp at h
    · cases h
      exact ⟨[], by simp⟩

/-- The pipe-extension loop only ever appends to its accumulator. -/
theorem pipeline_loop_append :
    ∀ (fuel : Nat) (s : Lexer) (acc res : List CommandNode) (s' : Lexer),
      pipeline_loop fuel s acc = .ok res s' → ∃ tail, res = acc ++ tail := by
  intro fuel
  induction fuel with
  | zero =>
    intro s acc res s' h
    simp [pipeline_loop] at h
  | succ n ih =>
    intro s acc res s' h
    simp only [pipeline_loop] at h
    split at h
    · split at h
      · simp at h
      · split at h
        · simp at h
        · split at h
          · simp at h
          · split at h
            · obtain ⟨tail, rfl⟩ := ih _ _ _ _ h
              exact ⟨_, List.append_assoc _ _ _⟩
            · split at h
              · simp at h
              · cases h
                exact ⟨[], by simp⟩
            · simp at h
    · cases h
      exact ⟨[], by simp⟩

/-- A statement returned by parse_pipeline is either a bare command or a
pipeline of at least two commands: the one-element case always collapses. -/
theorem parse_pipeline_shape (s : Lexer) (st : StatementNode) (s' : Lexer)
    (h : parse_pipeline s = .ok st s') : base_ok st = true := by
  simp only [parse_pipeline] at h
  split at h
  · split at h
    · rename_i first s1 hcmd cmds s2 hloop
      obtain ⟨tail, rfl⟩ := pipeline_loop_append _ _ _ _ _ hloop
      split at h
      · cases h
        rfl
      · cases h
        rename_i hlen
        simp only [base_ok, List.length_append, List.length_cons, List.length_nil,
          decide_eq_true_eq]
        simp only [List.length_append, List.length_cons, List.length_nil] at hlen
        omega
    · simp at h
    · simp at h
  · simp at h
  · simp at h

/-- A statement that satisfies base_ok satisfies stmt_ok. -/
theorem base_ok_stmt_ok (st : StatementNode) (h : base_ok st = true) : stmt_ok st = true := by
  cases st <;> simp_all [base_ok, stmt_ok]

/-- The semicolon loop preserves the invariant that every collected
statement satisfies base_ok (its elements come from parse_pipeline). -/
theorem list_loop_all_base_ok :
    ∀ (fuel : Nat) (s : Lexer) (acc res : List StatementNode) (s' : Lexer),
      acc.all base_ok = true → list_loop fuel s acc = .ok res s' → res.all base_ok = true := by
  intro fuel
  induction fuel with
  | zero =>
    intro s acc res s' hacc h
    simp [list_loop] at h
  | succ n ih =>
    intro s acc res s' hacc h
    simp only [list_loop] at h
    split at h
    · split at h
      · cases h
        exact hacc
      · split at h
        · simp at h
        · split at h
          · rename_i next s2 hpipe
            split at h
            · simp at h
            · refine ih _ _ _ _ ?_ h
              have hb := parse_pipeline_shape _ _ _ hpipe
              simp [List.all_append, hacc, hb]
          · simp at h
          · simp at h
    · cases h
      exact hacc

/-- A statement returned by parse_list satisfies stmt_ok: it is a
pipeline result, or a sequence whose elements are pipeline results. -/
theorem parse_list_shape (s : Lexer) (st : StatementNode) (s' : Lexer)
    (h : parse_list s = .ok st s') : stmt_ok st = true := by
  simp only [parse_list] at h
  split at h
  · rename_i first s1 hpipe
    have hb := parse_pipeline_shape _ _ _ hpipe
    split at h
    · split at h
      · rename_i stmts s2 hloop
        cases h
        have hall := list_loop_all_base_ok _ _ _ _ _ (by simp [hb]) hloop
        simpa [stmt_ok] using hall
      · simp at h
      · simp at h
    · cases h
      exact base_ok_stmt_ok _ hb
  · simp at h
  · simp at h

/-- A statement returned by parse_statement satisfies stmt_ok. -/
theorem parse_statement_shape (s : Lexer) (st : StatementNode) (s' : Lexer)
    (h : parse_statement s = .ok st s') : stmt_ok st = true := by
  simp only [parse_statement] at h
  split at h
  · simp at h
  · split at h
    · split at h
      · cases h
        rfl
      · simp at h
      · simp at h
    · split at h
      · split at h
        · cases h
          rfl
        · simp at h
        · simp at h
      · exact parse_list_shape _ _ _ h

/-- A program built by parse_line satisfies prog_ok. -/
theorem parse_line_shape (s : Lexer) (p : ProgramNode) (s' : Lexer)
    (h : Parser.parse_line s = .ok p s') : prog_ok p = true := by
  simp only [Parser.parse_line] at h
  split at h
  · cases h
    rfl
  · split at h
    · rename_i stmt s1 hst
      have hs := parse_statement_shape _ _ _ hst
      repeat' split at h
      all_goals first
        | (cases h; simp [prog_ok, hs])
        | simp at h
    · simp at h
    · simp at h

/-- The statement loop of parse_program preserves the invariant that
every collected statement satisfies stmt_ok. -/
theorem program_loop_all :
    ∀ (fuel : Nat) (s : Lexer) (acc res : List StatementNode) (s' : Lexer),
      acc.all stmt_ok = true → program_loop fuel s acc = .ok res s' → res.all stmt_ok = true := by
  intro fuel
  induction fuel with
  | zero =>
    intro s acc res s' hacc h
    simp [program_loop] at h
  | succ n ih =>
    intro s acc res s' hacc h
    simp only [program_loop] at h
    split at h
    · cases h
      exact hacc
    · split at h
      · rename_i st s1 hst
        refine ih _ _ _ _ ?_ h
        have hb := parse_statement_shape _ _ _ hst
        simp [List.all_append, hacc, hb]
      · simp at h
      · simp at h

/-- A program built by parse_program satisfies prog_ok. -/
theorem parse_program_shape (s : Lexer) (p : ProgramNode) (s' : Lexer)
    (h : Parser.parse_program s = .ok p s') : prog_ok p = true := by
  simp only [Parser.parse_program] at h
  split at h
  · rename_i stmts s1 hloop
    cases h
    exact program_loop_all _ _ [] _ _ rfl hloop
  · simp at h
  · simp at h

/-- C3 (amended): no statement tree returned by parse_line or
parse_program contains a one-element PipelineNode, and sequences never
nest; a single accepted command with no trailing semicolon is a bare
CommandNode, but a single command followed by a trailing semicolon is
wrapped in a one-element SequenceNode (the case the original claim
excluded). -/
theorem claim_C3_collapse_amended :
    (∀ (src : List Char) (p : ProgramNode), parse_line_main src = .ok p → prog_ok p = true) ∧
    (∀ (src : List Char) (p : ProgramNode), parse_program_main src = .ok p → prog_ok p = true) ∧
    parse_line_main "echo hi".data =
      ParseOutcome.ok { statements := [StatementNode.command echo_hi_cmd] } ∧
    parse_line_main "echo hi;".data =
      ParseOutcome.ok { statements := [StatementNode.sequence [StatementNode.command echo_hi_cmd]] } := by
  refine ⟨?_, ?_, rfl, rfl⟩
  · intro src p h
    unfold parse_line_main at h
    split at h
    · rename_i p0 st heq
      cases h
      exact parse_line_shape _ _ _ heq
    · simp at h
    · simp at h
  · intro src p h
    unfold parse_program_main at h
    split at h
    · rename_i p0 st heq
      cases h
      exact parse_program_shape _ _ _ heq
    · simp at h
    · simp at h

/-- Witness for C3: the amended collapse invariant applied at the
concrete input echo hi. -/
theorem claim_C3_witness :
    prog_ok { statements := [StatementNode.command echo_hi_cmd] } = true :=
  claim_C3_collapse_amended.1 ("echo hi".data)
    { statements := [StatementNode.command echo_hi_cmd] } (by rfl)

/-- C5: source-order preservation.  The argument loop and the
redirection loop only ever append on the right of their accumulators, so
recorded arguments and redirections keep the left-to-right order in
which the parser met them, never permuted; at the concrete inputs of the
claim, grep -R foo ./src yields the arguments -R, foo, ./src in source
order, and cmd < in > out yields the redirections Input in then
OutputTruncate out in source order. -/
theorem claim_C5_source_order :
    (∀ (fuel : Nat) (s : Lexer) (acc res : List Word) (s' : Lexer),
        args_loop fuel s acc = .ok res s' → ∃ tail, res = acc ++ tail) ∧
    (∀ (fuel : Nat) (s : Lexer) (acc res : List Redirection) (s' : Lexer),
        redir_loop fuel s acc = .ok res s' → ∃ tail, res = acc ++ tail) ∧
    parse_line_main "grep -R foo ./src".data =
      ParseOutcome.ok { statements := [StatementNode.command
        { command_name := { text := "grep".data, quoted := false, needs_expansion := true },
          arguments :=
            [{ text := "-R".data, quoted := false, needs_expansion := true },
             { text := "foo".data, quoted := false, needs_expansion := true },
             { text := "./src".data, quoted := false, needs_expansion := true }],
          redirections := [], background := false }] } ∧
    parse_line_main "cmd < in > out".data =
      ParseOutcome.ok { statements := [StatementNode.command
        { command_name := { text := "cmd".data, quoted := false, needs_expansion := true },
          arguments := [],
          redirections :=
            [{ kind := RedirectKind.Input,
               target := { text := "in".data, quoted := false, needs_expansion := true } },
             { kind := RedirectKind.OutputTruncate,
               target := { text := "out".data, quoted := false, needs_expansion := true } }],
          background := false }] } := by
  exact ⟨args_loop_append, redir_loop_append, rfl, rfl⟩

/-- Witness for C5: the append-only order facts applied at concrete
inputs, discharging their hypotheses by computation. -/
theorem claim_C5_witness :
    (∃ tail, [({ text := ['x'], quoted := false, needs_expansion := true } : Word)] = [] ++ tail) ∧
    (∃ tail, ([] : List Redirection) = [] ++ tail) := by
  constructor
  · exact claim_C5_source_order.1 3 (mkLexer ['x']) []
      [{ text := ['x'], quoted := false, needs_expansion := true }]
      { source := ['x'], rest := [], line := 1, column := 2,
        peeked := some { type := TokenType.EndOfFile, value := [], line := 1, column := 2 } }
      (by rfl)
  · exact claim_C5_source_order.2.1 1 (mkLexer []) [] []
      { source := [], rest := [], line := 1, column := 1,
        peeked := some { type := TokenType.EndOfFile, value := [], line := 1, column := 1 } }
      (by rfl)

end WShell
